import Mathlib

/-!
# The istio HTTP client (`plugins/client/istio_http/http.go`)

A shallow embedding of the dispatch engine of `httpClient`: the node resolver
`next`, the session establisher `stream`, the unary executor `call`, the
dispatchers `Call` and `Stream`, and `Publish`.

Conventions of the embedding.

* A Go `string` is a Lean `String`.  The source only asks whether a string is
  empty and whether its first byte is the ASCII colon, which agree with the
  same questions asked of characters.
* A run-time panic is an explicit outcome (`Res.panic`).
* Collaborators (policies, dialer, codecs, broker, the clock, the Go run time
  and the formatting of package `fmt`) are fields of the options or of an `Env`
  record and are taken to be present (not nil); every call of a collaborator is
  written to a trace of `Event`s, oldest first.
* A `select` between the context and a result channel is resolved by the
  environment (`Env.done`).
-/

namespace IstioHttp

/-! ## Values -/

/-- Outcome of a Go function body: it returns a value or it panics. -/
inductive Res (α : Type) where
  | ret (a : α)
  | panic (msg : String)
  deriving DecidableEq, Repr

/-- The error value of package `errors` of go-micro (`*errors.Error`). -/
structure MicroError where
  Id : String
  Code : Int
  Detail : String
  Status : String
  deriving DecidableEq, Repr

/-- An error value made by a collaborator: the selector sentinel
`selector.ErrNotFound`, or any other error, known by the text of `Error()`. -/
inductive ExtError where
  | ErrNotFound
  | other (text : String)
  deriving DecidableEq, Repr

/-- The method `Error()` of a collaborator error. -/
def ExtError.Error : ExtError → String
  | .ErrNotFound => "not found"
  | .other text => text

/-- A Go `error` as the dispatchers return it: an error made by this client
with package `errors`, or a collaborator error passed through. -/
inductive GoError where
  | micro (e : MicroError)
  | ext (e : ExtError)
  deriving DecidableEq, Repr

/-- Function `errors.New(id, detail, code)`: the detail is stored as given; the
status text is that of `http.StatusText` for the codes this client uses. -/
def errorsNew (id detail : String) (code : Int) : GoError :=
  .micro { Id := id, Code := code, Detail := detail,
           Status := if code = 408 then "Request Timeout"
                     else if code = 404 then "Not Found"
                     else if code = 500 then "Internal Server Error" else "" }

/-- Type `registry.Node`, the fields the client reads. -/
structure Node where
  Address : String
  Port : Int := 0
  deriving DecidableEq, Repr

/-- Type `selector.Next`: a producer of nodes. -/
abbrev Next := Unit → Except ExtError Node

/-- A `client.Request`: service, method, content type and the body. -/
structure Request where
  Service : String
  Method : String := ""
  ContentType : String := ""
  Body : String := ""
  deriving DecidableEq, Repr

/-- The two values of `ctx.Err()` of a finished context. -/
inductive CtxErr where
  | Canceled
  | DeadlineExceeded
  deriving DecidableEq, Repr

/-- Text of `fmt.Sprintf("%v", ctx.Err())`. -/
def CtxErr.text : CtxErr → String
  | .Canceled => "context canceled"
  | .DeadlineExceeded => "context deadline exceeded"

/-- What `metadata.FromContext(ctx)` gives: nothing (`ok` false), a nil map, or
a map with its entries in the order a `range` visits them. -/
inductive Metadata where
  | absent
  | nilMap
  | entries (kv : List (String × String))
  deriving DecidableEq, Repr

/-- A `context.Context` as the client observes it when a dispatcher is entered:
its deadline (nanoseconds), `Err()` at that moment and the metadata it carries. -/
structure Context where
  deadline : Option Int := none
  err : Option CtxErr := none
  metadata : Metadata := .absent
  deriving DecidableEq, Repr

/-! ## Strings -/

/-- Worker of `strings.Replace(s, old, new, -1)` for a non-empty `old`, on
characters: `skip` counts the characters of a matched occurrence that are still
to be dropped. -/
def replaceGo (old new : List Char) : Nat → List Char → List Char
  | _, [] => []
  | 0, c :: cs =>
      if old ≠ [] ∧ old.isPrefixOf (c :: cs) then
        new ++ replaceGo old new (old.length - 1) cs
      else c :: replaceGo old new 0 cs
  | k + 1, _ :: cs => replaceGo old new k cs

/-- Function `strings.Replace(s, old, new, -1)`: every non-overlapping
occurrence of `old`, from the left, becomes `new`; an empty `old` matches
before every character and at the end. -/
def Replace (s old new : String) : String :=
  if old.data = [] then ⟨new.data ++ s.data.flatMap (fun c => c :: new.data)⟩
  else ⟨replaceGo old.data new.data 0 s.data⟩

/-- The slice expression `s[:1]` of a string: a panic on the empty string
(slice bounds out of range), otherwise the first byte.  The client compares the
result with `":"` only. -/
def sliceTo1 (s : String) : Res String :=
  match s.data with
  | [] => .panic "slice bounds out of range [:1] with length 0"
  | c :: _ => .ret ⟨[c]⟩

/-- The service name with every dot turned into a dash, character by character. -/
def dashed (service : String) : String :=
  ⟨service.data.map (fun c => if c = '.' then '-' else c)⟩

/-! ## Call options -/

/-- Type `client.CallOptions` without its call wrappers: the fields the
executors read.  `Backoff` and `Retry` take the context, the request and the
attempt index (a non-negative `int`); a returned error stands for a non-nil
second result. -/
structure CallSettings where
  Address : String := ""
  Retries : Int := 1
  RequestTimeout : Int := 5000000000
  Backoff : Context → Request → Nat → Except ExtError Int := fun _ _ _ => .ok 0
  Retry : Context → Request → Nat → Option GoError → Except ExtError Bool :=
    fun _ _ _ _ => .ok false

/-! ## The node resolver -/

/-- Method `httpClient.next`, lines 37-67.  The result pairs the producer with
the error result (always nil when the method returns). -/
def next (request : Request) (opts : CallSettings) :
    Res (Next × Option GoError) :=
  let derived : Res (Next × Option GoError) :=
    let addr := Replace request.Service "." "-"
    match sliceTo1 opts.Address with
    | .panic msg => .panic msg
    | .ret p =>
        let addr := if p = ":" then addr ++ opts.Address else addr
        .ret (fun _ => .ok { Address := addr }, none)
  if opts.Address.length > 0 then
    match sliceTo1 opts.Address with
    | .panic msg => .panic msg
    | .ret p =>
        if p ≠ ":" then .ret (fun _ => .ok { Address := opts.Address }, none)
        else derived
  else derived

/-- One resolution as a caller sees it: `next`, then one invocation of the
producer it returned. -/
def resolveNode (request : Request) (opts : CallSettings) :
    Res (Except GoError Node) :=
  match next request opts with
  | .panic msg => .panic msg
  | .ret (_, some err) => .ret (.error err)
  | .ret (nx, none) =>
      match nx () with
      | .ok node => .ret (.ok node)
      | .error e => .ret (.error (.ext e))

/-! ## Library functions on strings -/

/-- Function `parsenum` of package `fmt` on the characters ahead: whether a
number was read and what follows it; nothing when the number grows too large,
where the scan gives up and jumps to its end. -/
def parsenum : Nat → Bool → List Char → Option (Bool × List Char)
  | _, isnum, [] => some (isnum, [])
  | num, isnum, c :: cs =>
      if c.isDigit then
        if num > 1000000 then none else parsenum (num * 10 + (c.toNat - 48)) true cs
      else some (isnum, c :: cs)

/-- Method `argNumber` of package `fmt` when there are no operands: nothing
when no bracket opens here; otherwise whether a well-formed index was read
(it is out of range in any case) and what follows it. -/
def argNumber (s : List Char) : Option (Bool × List Char) :=
  match s with
  | '[' :: rest =>
      if s.length < 3 then some (false, rest)
      else
        match rest.span (fun c => c ≠ ']') with
        | (inner, ']' :: after) =>
            some ((match parsenum 0 false inner with
                   | some (true, []) => true
                   | _ => false), after)
        | _ => some (false, rest)
  | _ => none

/-- One directive of a format, from the character after the percent sign, when
there are no operands: what `fmt` writes for it and the rest of the format. -/
def directive (s : List Char) : List Char × List Char :=
  let s1 := s.dropWhile (fun c => c = '#' || c = '0' || c = '+' || c = '-' || c = ' ')
  let i1 : Bool × Bool × List Char :=
    match argNumber s1 with
    | some (ok, r) => (ok, false, r)
    | none => (false, true, s1)
  let w : List Char × Bool × Bool × List Char :=
    match i1.2.2 with
    | '*' :: r => ("%!(BADWIDTH)".data, false, i1.2.1, r)
    | s2 =>
        match parsenum 0 false s2 with
        | none => ([], i1.1, i1.2.1, [])
        | some (wid, r) => ([], i1.1, i1.2.1 && !(i1.1 && wid), r)
  let pr : List Char × Bool × Bool × List Char :=
    match w.2.2.2 with
    | '.' :: r =>
        let good := w.2.2.1 && !w.2.1
        let i2 : Bool × Bool × List Char :=
          match argNumber r with
          | some (ok, r2) => (ok, false, r2)
          | none => (false, good, r)
        match i2.2.2 with
        | '*' :: r3 => (w.1 ++ "%!(BADPREC)".data, false, i2.2.1, r3)
        | s3 =>
            match parsenum 0 false s3 with
            | none => (w.1, i2.1, i2.2.1, [])
            | some (_, r3) => (w.1, i2.1, i2.2.1, r3)
    | s3 => (w.1, w.2.1, w.2.2.1, s3)
  let last : Bool × List Char :=
    if pr.2.1 then (pr.2.2.1, pr.2.2.2)
    else
      match argNumber pr.2.2.2 with
      | some (_, r) => (false, r)
      | none => (pr.2.2.1, pr.2.2.2)
  match last.2 with
  | [] => (pr.1 ++ "%!(NOVERB)".data, [])
  | verb :: r =>
      if verb = '%' then (pr.1 ++ ['%'], r)
      else if last.1 then (pr.1 ++ "%!".data ++ [verb] ++ "(MISSING)".data, r)
      else (pr.1 ++ "%!".data ++ [verb] ++ "(BADINDEX)".data, r)

/-- The scan of a format without operands; `fuel` bounds the characters left. -/
def expandVerbs : Nat → List Char → List Char
  | 0, _ => []
  | _, [] => []
  | fuel + 1, c :: cs =>
      if c = '%' then (directive cs).1 ++ expandVerbs fuel (directive cs).2
      else c :: expandVerbs fuel cs

/-- What `fmt.Sprintf(format)` writes, without operands, for a format that has
directives: every verb is reported as missing its operand. -/
def noOperands (format : String) : String :=
  ⟨expandVerbs (format.length + 1) format.data⟩

/-- The bytes allowed in a header field name (`validHeaderFieldByte`). -/
def validHeaderFieldByte (c : Char) : Bool :=
  c.isAlphanum || "!#$%&*+-.^_|~".data.contains c || c = Char.ofNat 39 || c = Char.ofNat 96

/-- Worker of `canonicalMIMEHeaderKey`: upper case at the start and after a
dash, lower case elsewhere. -/
def canonicalGo : Bool → List Char → List Char
  | _, [] => []
  | upper, c :: cs =>
      let c1 := if upper && c.isLower then c.toUpper
                else if !upper && c.isUpper then c.toLower else c
      c1 :: canonicalGo (c1 = '-') cs

/-- Function `textproto.CanonicalMIMEHeaderKey`: a key with a byte that is not
allowed in a field name is returned unchanged. -/
def CanonicalMIMEHeaderKey (s : String) : String :=
  if s.data.all validHeaderFieldByte then ⟨canonicalGo true s.data⟩ else s

/-- The saturation of `time.Time.Sub`: a difference outside the range of a
`time.Duration` becomes the nearest bound. -/
def saturate (d : Int) : Int :=
  if d > 9223372036854775807 then 9223372036854775807
  else if d < -9223372036854775808 then -9223372036854775808 else d

/-! ## Collaborators and the trace -/

/-- A codec of one of the codec tables, known by its name. -/
structure Codec where
  name : String
  deriving DecidableEq, Repr

/-- The stream handle `httpStream` that `stream` builds: address, connection,
codec, header set and originating request. -/
structure HttpStream where
  address : String
  conn : Nat
  codec : Codec
  header : List (String × String)
  request : Request
  deriving DecidableEq, Repr

/-- The destination `url.URL` that lines 91-95 build for a unary call; the
request is made from its `String()`. -/
structure Url where
  Scheme : String
  Host : String
  Path : String
  deriving DecidableEq, Repr

/-- A call of a collaborator, as the trace records it. -/
inductive Event where
  /-- Policy `Backoff(ctx, req, i)` was evaluated. -/
  | backoff (i : Nat)
  /-- Call `time.Sleep(t)`. -/
  | sleep (t : Int)
  /-- The node producer `next()` was invoked. -/
  | produce
  /-- Method `stream` was entered for the address: one establishment attempt. -/
  | establish (address : String)
  /-- Call `net.Dial("tcp", address)`. -/
  | dial (address : String)
  /-- Call `Selector.Mark(service, node, err)`. -/
  | mark (service : String) (node : Node) (err : Option GoError)
  /-- Policy `Retry(ctx, req, i, err)` was consulted. -/
  | retry (i : Nat) (err : Option GoError)
  /-- The HTTP client sent the request (`c.Do`): destination, headers, body. -/
  | httpDo (url : Url) (header : List (String × String)) (body : String)
  /-- Call `Broker.Connect()`. -/
  | connect
  /-- Call `Broker.Publish(topic, message)`. -/
  | publish (topic : String) (header : List (String × String)) (body : String)
  deriving DecidableEq, Repr

/-- A result together with the collaborator calls that produced it. -/
abbrev Traced (α : Type) := α × List Event

/-- What the client takes from outside: the clock, the observations of the
dispatch context at its `select` points, the dialer (asked once per attempt,
by attempt index), the codec tables of the package and the codecs, the HTTP
round trip, the broker, the formatting of package `fmt` and the limits of the
run time. -/
structure Env where
  /-- What `fmt.Sprintf(format)` returns, without operands, for a format that
  contains a percent sign. -/
  verbs : String → String := noOperands
  /-- The largest count for which `make(chan response, count)` of line 343
  returns; beyond it the call does not return: it panics with the message of a
  negative count (about 2^43 slots and more on a 64-bit platform), or the run
  time gives up for lack of memory. -/
  responseChanLimit : Nat := 8796093022205
  /-- The largest count for which `make(chan error, count)` of line 263
  returns. -/
  errorChanLimit : Nat := 17592186044410
  /-- Value of `time.Now()`, in nanoseconds. -/
  now : Int := 0
  /-- Observation of a not yet finished dispatch context at select point `p`
  (0 is the check before the start, `i + 1` the race of attempt `i`):
  `some e` when the branch `<-ctx.Done()` is taken, with `ctx.Err() = e`. -/
  done : Nat → Option CtxErr := fun _ => none
  /-- Outcome of `net.Dial("tcp", address)` during attempt `i`. -/
  dial : Nat → String → Except ExtError Nat := fun _ _ => .ok 0
  /-- Table `defaultHTTPCodecs`. -/
  httpCodecs : String → Option Codec := fun _ => none
  /-- Table `defaultRPCCodecs`. -/
  rpcCodecs : String → Option Codec := fun _ => none
  /-- Table `h.opts.Codecs`. -/
  optsCodecs : String → Option Codec := fun _ => none
  /-- Method `Marshal` of a transport codec. -/
  marshal : Codec → String → Except ExtError String := fun _ b => .ok b
  /-- Function `http.NewRequest` refusing a destination. -/
  newRequest : Url → Option ExtError := fun _ => none
  /-- The round trip `c.Do` followed by `ioutil.ReadAll`: a transport error, or
  the outcome of reading the body. -/
  roundTrip : Url → String → Except ExtError (Except ExtError String) :=
    fun _ b => .ok (.ok b)
  /-- Method `Unmarshal` of a transport codec. -/
  unmarshal : Codec → String → Option ExtError := fun _ _ => none
  /-- Writing the publication envelope with a message codec. -/
  write : Codec → String → Except ExtError String := fun _ b => .ok b
  /-- Method `Publish` of the broker. -/
  brokerPublish : String → List (String × String) → String → Option ExtError :=
    fun _ _ _ => none

/-- Function `fmt.Sprintf(format)` without operands: a format without a percent
sign is returned as it is, any other is expanded by the library. -/
def Sprintf (env : Env) (format : String) : String :=
  if '%' ∈ format.data then env.verbs format else format

/-- Function `errors.InternalServerError(id, format)`: code 500; the detail is
`fmt.Sprintf(format)`, and the client passes the text of an error as format. -/
def InternalServerError (env : Env) (id format : String) : GoError :=
  .micro { Id := id, Code := 500, Detail := Sprintf env format,
           Status := "Internal Server Error" }

/-- Function `errors.NotFound(id, format)`: code 404; the detail is
`fmt.Sprintf(format)`. -/
def NotFound (env : Env) (id format : String) : GoError :=
  .micro { Id := id, Code := 404, Detail := Sprintf env format, Status := "Not Found" }

/-- The call `make(chan T, size)`: whether it panics (`makechan: size out of
range`), which it does for a negative size and for one beyond `limit`, the most
the run time allocates for the element type. -/
def makeChanPanics (limit : Nat) (size : Int) : Bool :=
  decide (size < 0) || decide ((limit : Int) < size)

/-- The unary call function type that call wrappers transform. -/
abbrev CallFunc := Context → Node → Request → CallSettings → Traced (Option GoError)

/-- Type `client.CallOptions`: the settings and the ordered call wrappers. -/
structure CallOptions extends CallSettings where
  CallWrappers : List (CallFunc → CallFunc) := []

/-- The assignment `m[k] = v` of a map of strings, kept as a list of entries. -/
def mapSet (m : List (String × String)) (k v : String) : List (String × String) :=
  if m.any (fun kv => kv.1 = k) then m.map (fun kv => if kv.1 = k then (k, v) else kv)
  else m ++ [(k, v)]

/-- Method `Set` of `http.Header`: the key is made canonical, the value
replaces what the key had. -/
def headerSet (h : List (String × String)) (k v : String) : List (String × String) :=
  mapSet h (CanonicalMIMEHeaderKey k) v

/-- The header set of both wire paths: the metadata of the context, then
`Timeout` (nanoseconds, decimal) and `Content-Type`. -/
def buildHeader (ctx : Context) (req : Request) (opts : CallSettings) :
    List (String × String) :=
  let md := match ctx.metadata with
    | .entries md => md.foldl (fun h kv => headerSet h kv.1 kv.2) []
    | _ => []
  headerSet (headerSet md "Timeout" (toString opts.RequestTimeout))
    "Content-Type" req.ContentType

/-- The address of a node with its port, when it has one:
`fmt.Sprintf("%s:%d", address, node.Port)`. -/
def nodeAddress (node : Node) : String :=
  if node.Port > 0 then node.Address ++ ":" ++ toString node.Port else node.Address

/-! ## Codec lookup -/

/-- Method `httpClient.newHTTPCodec`, lines 172-177. -/
def newHTTPCodec (env : Env) (contentType : String) : Except ExtError Codec :=
  match env.httpCodecs contentType with
  | some c => .ok c
  | none => .error (.other ("Unsupported Content-Type: " ++ contentType))

/-- Method `httpClient.newCodec`, lines 179-187. -/
def newCodec (env : Env) (contentType : String) : Except ExtError Codec :=
  match env.optsCodecs contentType with
  | some c => .ok c
  | none =>
      match env.rpcCodecs contentType with
      | some cf => .ok cf
      | none => .error (.other ("Unsupported Content-Type: " ++ contentType))

/-! ## The executors -/

/-- Method `httpClient.call`, lines 69-134: one unary round trip. -/
def call (env : Env) : CallFunc := fun ctx node req opts =>
  let address := nodeAddress node
  match newHTTPCodec env req.ContentType with
  | .error err => (some (InternalServerError env "go.micro.client" err.Error), [])
  | .ok cf =>
      match env.marshal cf req.Body with
      | .error err => (some (InternalServerError env "go.micro.client" err.Error), [])
      | .ok b =>
          let url : Url := { Scheme := "http", Host := address, Path := req.Method }
          match env.newRequest url with
          | some err => (some (InternalServerError env "go.micro.client" err.Error), [])
          | none =>
              let header := buildHeader ctx req opts
              match env.roundTrip url b with
              | .error err =>
                  (some (InternalServerError env "go.micro.client" err.Error),
                    [.httpDo url header b])
              | .ok (.error err) =>
                  (some (InternalServerError env "go.micro.client" err.Error),
                    [.httpDo url header b])
              | .ok (.ok body) =>
                  match env.unmarshal cf body with
                  | some err =>
                      (some (InternalServerError env "go.micro.client" (body ++ err.Error)),
                        [.httpDo url header b])
                  | none => (none, [.httpDo url header b])

/-- Method `httpClient.stream`, lines 136-170: one session establishment, during
attempt `attempt` (the index only selects the answer of the dialer). -/
def stream (env : Env) (attempt : Nat) (ctx : Context) (address : String)
    (req : Request) (opts : CallSettings) : Traced (Option HttpStream × Option GoError) :=
  let header := buildHeader ctx req opts
  match newHTTPCodec env req.ContentType with
  | .error err =>
      ((none, some (InternalServerError env "go.micro.client" err.Error)), [.establish address])
  | .ok cf =>
      match env.dial attempt address with
      | .error err =>
          ((none, some (InternalServerError env "go.micro.client"
              ("Error dialing: " ++ err.Error))), [.establish address, .dial address])
      | .ok cc =>
          ((some { address := address, conn := cc, codec := cf, header := header,
                   request := req }, none), [.establish address, .dial address])

/-! ## The dispatch context -/

/-- Lines 221-231 and 290-300: a context without a deadline gets one from
`RequestTimeout` (`context.WithTimeout`, which hands on the state of a finished
parent and is finished at once for a timeout that is not positive); with a
deadline, `RequestTimeout` becomes the remaining time `d.Sub(time.Now())`. -/
def withDeadline (env : Env) (ctx : Context) (callOpts : CallSettings) :
    Context × CallSettings :=
  match ctx.deadline with
  | none =>
      ({ ctx with
          deadline := some (env.now + callOpts.RequestTimeout)
          err := match ctx.err with
            | some e => some e
            | none => if callOpts.RequestTimeout ≤ 0 then some .DeadlineExceeded else none },
        callOpts)
  | some d => (ctx, { callOpts with RequestTimeout := saturate (d - env.now) })

/-- What a `select` sees on `ctx.Done()` at select point `p`: the error of a
context that was finished already, otherwise the observation of the
environment. -/
def ctxDone (env : Env) (ctx : Context) (p : Nat) : Option CtxErr :=
  match ctx.err with
  | some e => some e
  | none => env.done p

/-- The error of lines 236, 270, 305 and 354: code 408 with the text of
`ctx.Err()`. -/
def timeoutError (e : CtxErr) : GoError :=
  errorsNew "go.micro.client" e.text 408

/-- The context a dispatcher works with after lines 221-231 (290-300). -/
def dispatchCtx (env : Env) (ctx : Context) (callOpts : CallOptions) : Context :=
  (withDeadline env ctx callOpts.toCallSettings).1

/-- The call options a dispatcher works with after lines 221-231 (290-300). -/
def dispatchOpts (env : Env) (ctx : Context) (callOpts : CallOptions) : CallSettings :=
  (withDeadline env ctx callOpts.toCallSettings).2

/-! ## The call dispatcher -/

/-- Lines 243-246: the wrappers are applied from the last registered to the
first, so that the first one is outermost. -/
def wrapCall (wrappers : List (CallFunc → CallFunc)) (hcall : CallFunc) : CallFunc :=
  wrappers.foldr (fun w f => w f) hcall

/-- The closure `call` of `Call`, lines 249-261: one node, one wrapped call. -/
def callTask (env : Env) (hcall : CallFunc) (ctx : Context) (req : Request)
    (callOpts : CallSettings) (nx : Next) : Traced (Option GoError) :=
  match nx () with
  | .error err =>
      if err = .ErrNotFound then
        (some (NotFound env "go.micro.client" err.Error), [.produce])
      else (some (InternalServerError env "go.micro.client" err.Error), [.produce])
  | .ok node =>
      ((hcall ctx node req callOpts).1, .produce :: (hcall ctx node req callOpts).2)

/-- Method `httpClient.Call`, lines 208-274.  The task started at line 264 is
raced against the context at select point 1; its collaborator calls are in the
trace also when the context wins. -/
def Call (env : Env) (ctx : Context) (req : Request) (callOpts : CallOptions) :
    Traced (Res (Option GoError)) :=
  match next req callOpts.toCallSettings with
  | .panic msg => (.panic msg, [])
  | .ret (_, some err) => (.ret (some err), [])
  | .ret (nx, none) =>
      let ctx1 := dispatchCtx env ctx callOpts
      let opts1 := dispatchOpts env ctx callOpts
      match ctxDone env ctx1 0 with
      | some e => (.ret (some (timeoutError e)), [])
      | none =>
          let hcall := wrapCall callOpts.CallWrappers (call env)
          if makeChanPanics env.errorChanLimit callOpts.Retries then
            (.panic "makechan: size out of range", [])
          else
            let task := callTask env hcall ctx1 req opts1 nx
            match ctxDone env ctx1 1 with
            | some e => (.ret (some (timeoutError e)), task.2)
            | none => (.ret task.1, task.2)

/-! ## The stream dispatcher -/

/-- The closure `call` of `Stream`, lines 309-336: attempt `i`. -/
def streamCall (env : Env) (ctx : Context) (req : Request) (callOpts : CallSettings)
    (nx : Next) (i : Nat) : Traced (Option HttpStream × Option GoError) :=
  match callOpts.Backoff ctx req i with
  | .error err =>
      ((none, some (InternalServerError env "go.micro.client" err.Error)), [.backoff i])
  | .ok t =>
      let pre : List Event := .backoff i :: ((if t > 0 then [.sleep t] else []) ++ [.produce])
      match nx () with
      | .error err =>
          if err = .ErrNotFound then
            ((none, some (NotFound env "go.micro.client" err.Error)), pre)
          else ((none, some (InternalServerError env "go.micro.client" err.Error)), pre)
      | .ok node =>
          let r := stream env i ctx (nodeAddress node) req callOpts
          (r.1, pre ++ r.2 ++ [.mark req.Service node r.1.2])

/-- The loop of lines 346-372 with the final return of line 374, from attempt
`i` with `left` iterations to go.  `err` is the variable `err` of `Stream`
itself (declared at line 285), which line 361 hands to the retry policy; `grr`
is the last error kept at line 370. -/
def streamLoop (env : Env) (ctx : Context) (req : Request) (callOpts : CallSettings)
    (nx : Next) (err : Option GoError) :
    Nat → Nat → Option GoError → Traced (Option HttpStream × Option GoError)
  | 0, _, grr => ((none, grr), [])
  | left + 1, i, _ =>
      let rsp := streamCall env ctx req callOpts nx i
      match ctxDone env ctx (i + 1) with
      | some e => ((none, some (timeoutError e)), rsp.2)
      | none =>
          match rsp.1.2 with
          | none => ((rsp.1.1, none), rsp.2)
          | some rspErr =>
              match callOpts.Retry ctx req i err with
              | .error rerr => ((none, some (.ext rerr)), rsp.2 ++ [.retry i err])
              | .ok false => ((none, some rspErr), rsp.2 ++ [.retry i err])
              | .ok true =>
                  let rest := streamLoop env ctx req callOpts nx err left (i + 1) (some rspErr)
                  (rest.1, rsp.2 ++ [.retry i err] ++ rest.2)

/-- Method `httpClient.Stream`, lines 277-375.  The pair is the returned stream
handle and the returned error, each possibly nil. -/
def Stream (env : Env) (ctx : Context) (req : Request) (callOpts : CallOptions) :
    Traced (Res (Option HttpStream × Option GoError)) :=
  match next req callOpts.toCallSettings with
  | .panic msg => (.panic msg, [])
  | .ret (_, some err) => (.ret (none, some err), [])
  | .ret (nx, none) =>
      let err : Option GoError := none
      let ctx1 := dispatchCtx env ctx callOpts
      let opts1 := dispatchOpts env ctx callOpts
      match ctxDone env ctx1 0 with
      | some e => (.ret (none, some (timeoutError e)), [])
      | none =>
          if makeChanPanics env.responseChanLimit opts1.Retries then
            (.panic "makechan: size out of range", [])
          else
            let r := streamLoop env ctx1 req opts1 nx err opts1.Retries.toNat 0 none
            (.ret r.1, r.2)

/-! ## The publish path -/

/-- A `client.Message`: topic, content type and payload. -/
structure Message where
  Topic : String
  ContentType : String
  Payload : String := ""
  deriving DecidableEq, Repr

/-- The header of the broker message, lines 378-382: the metadata of the
context (a fresh map when there is none) with `Content-Type` set. -/
def publishHeader (ctx : Context) (p : Message) : List (String × String) :=
  mapSet (match ctx.metadata with | .entries kv => kv | _ => [])
    "Content-Type" p.ContentType

/-- Method `httpClient.Publish`, lines 377-402.  `once` tells whether `h.once`
has fired; the result carries the returned error (or the panic of line 382 on a
nil metadata map), the trace and the new state of `h.once`. -/
def Publish (env : Env) (once : Bool) (ctx : Context) (p : Message) :
    Traced (Res (Option GoError)) × Bool :=
  match ctx.metadata with
  | .nilMap => ((.panic "assignment to entry in nil map", []), once)
  | _ =>
      let md := publishHeader ctx p
      match newCodec env p.ContentType with
      | .error err =>
          ((.ret (some (InternalServerError env "go.micro.client" err.Error)), []), once)
      | .ok cf =>
          match env.write cf p.Payload with
          | .error err =>
              ((.ret (some (InternalServerError env "go.micro.client" err.Error)), []), once)
          | .ok body =>
              ((.ret ((env.brokerPublish p.Topic md body).map GoError.ext),
                (if once then [] else [.connect]) ++ [.publish p.Topic md body]), true)

/-! ## Reading a trace -/

/-- The attempt indices the backoff policy was evaluated with, in order. -/
def backoffIndices (tr : List Event) : List Nat :=
  tr.filterMap (fun ev => match ev with | .backoff i => some i | _ => none)

/-- The number of session establishment attempts (entries of `stream`). -/
def establishments (tr : List Event) : Nat :=
  tr.countP (fun ev => match ev with | .establish _ => true | _ => false)

/-- The number of network connections opened or tried (`net.Dial`). -/
def dials (tr : List Event) : Nat :=
  tr.countP (fun ev => match ev with | .dial _ => true | _ => false)

/-- The arguments `(i, err)` of the consultations of the retry policy, in order. -/
def retryConsultations (tr : List Event) : List (Nat × Option GoError) :=
  tr.filterMap (fun ev => match ev with | .retry i e => some (i, e) | _ => none)

/-- The number of invocations of the node producer. -/
def productions (tr : List Event) : Nat :=
  tr.countP (fun ev => match ev with | .produce => true | _ => false)

/-- The number of requests the HTTP client sent. -/
def roundTrips (tr : List Event) : Nat :=
  tr.countP (fun ev => match ev with | .httpDo _ _ _ => true | _ => false)


/-- The outcome of the session establishment of attempt `i` of a dispatch whose
resolver yields `node`: what `stream` returns there. -/
def establishment (env : Env) (ctx : Context) (req : Request) (callOpts : CallOptions)
    (node : Node) (i : Nat) : Option HttpStream × Option GoError :=
  (stream env i (dispatchCtx env ctx callOpts) (nodeAddress node) req
    (dispatchOpts env ctx callOpts)).1

/-- The error of an establishment for a content type without transport codec. -/
def unsupportedContentType (env : Env) (req : Request) : GoError :=
  InternalServerError env "go.micro.client" ("Unsupported Content-Type: " ++ req.ContentType)

/-! ## Sample inputs -/

/-- A transport codec table with the one entry `application/json`. -/
def jsonOnly (contentType : String) : Option Codec :=
  if contentType = "application/json" then some { name := "json" } else none

/-- An environment whose dialer refuses attempts 0 and 1 and accepts from
attempt 2 on. -/
def refusesTwice : Env :=
  { dial := fun i _ => if i < 2 then .error (.other "connection refused") else .ok 7
    httpCodecs := jsonOnly }

/-- An environment whose dialer always refuses. -/
def refusesAlways : Env :=
  { dial := fun _ _ => .error (.other "connection refused")
    httpCodecs := jsonOnly }

/-- A request for the service `com.example.inventory` in JSON. -/
def inventoryRequest : Request :=
  { Service := "com.example.inventory", Method := "Inventory.Sell",
    ContentType := "application/json" }

/-- The same request with a content type no codec table has. -/
def yamlRequest : Request :=
  { inventoryRequest with ContentType := "application/yaml" }

/-- Call options: port suffix `:9090`, `retries` attempts, a retry policy that
always answers `retry`. -/
def portOptions (retries : Int) (retry : Bool) : CallOptions :=
  { Address := ":9090", Retries := retries, Retry := fun _ _ _ _ => .ok retry }

/-- The node of `inventoryRequest` under `portOptions`. -/
def inventoryNode : Node := { Address := "com-example-inventory:9090" }

/-- The handle the third attempt of `refusesTwice` gives. -/
def inventoryStream : HttpStream :=
  { address := "com-example-inventory:9090", conn := 7, codec := { name := "json" },
    header := [("Timeout", "5000000000"), ("Content-Type", "application/json")],
    request := inventoryRequest }

/-- The error of a refused dial. -/
def refused : GoError :=
  .micro { Id := "go.micro.client", Code := 500,
           Detail := "Error dialing: connection refused",
           Status := "Internal Server Error" }

/-- Call options without address override: three attempts, a retry policy that
always asks for another attempt. -/
def unsetAddressOptions : CallOptions :=
  { Address := "", Retries := 3, Retry := fun _ _ _ _ => .ok true }

/-- Call options with the port suffix `:9090`, three attempts and a retry
policy that declines after every error it is shown and asks for another attempt
when it is shown none. -/
def declineErrorsOptions : CallOptions :=
  { Address := ":9090", Retries := 3,
    Retry := fun _ _ _ err => .ok (decide (err = none)) }

/-- A request whose content type has a formatting verb in it. -/
def verbRequest : Request :=
  { inventoryRequest with ContentType := "text/%s" }

/-- A context that carries a nil metadata map. -/
def nilMetadataCtx : Context := { metadata := .nilMap }

/-- A context that was canceled before the dispatcher is entered. -/
def canceledCtx : Context := { err := some .Canceled }

/-- An environment whose broker refuses to publish. -/
def brokerDown : Env :=
  { rpcCodecs := fun _ => some { name := "proto-rpc" }
    brokerPublish := fun _ _ _ => some (.other "broker unavailable") }

/-- An environment whose message codec fails to write the envelope. -/
def writeFails : Env :=
  { rpcCodecs := fun _ => some { name := "proto-rpc" }
    write := fun _ _ => .error (.other "payload is not a proto message") }

/-- An environment whose codec tables are empty. -/
def noCodecs : Env := {}

/-- A message for the topic `inventory.sold`. -/
def soldMessage : Message :=
  { Topic := "inventory.sold", ContentType := "application/proto", Payload := "sold" }

/-! ## The node resolver: lemmas -/

theorem replaceGo_dot (l : List Char) :
    replaceGo ['.'] ['-'] 0 l = l.map (fun c => if c = '.' then '-' else c) := by
  induction l with
  | nil => rfl
  | cons c cs ih =>
      by_cases hc : c = '.'
      · subst hc
        simp [replaceGo, List.isPrefixOf, ih]
      · have hc2 : ¬ ('.' = c) := fun h => hc h.symm
        simp [replaceGo, List.isPrefixOf, ih, hc, hc2]

theorem Replace_dot_dash (s : String) : Replace s "." "-" = dashed s := by
  have h1 : (".".data = []) = False := by decide
  simp only [Replace, h1, if_false, dashed]
  exact congrArg String.mk (replaceGo_dot s.data)

theorem next_colon (req : Request) (opts : CallSettings) (rest : List Char)
    (h : opts.Address.data = ':' :: rest) :
    next req opts
      = .ret (fun _ => .ok { Address := dashed req.Service ++ opts.Address }, none) := by
  have hlen : opts.Address.length > 0 := by
    simp [String.length, h]
  have hs : sliceTo1 opts.Address = .ret ":" := by
    simp [sliceTo1, h]
  simp [next, hlen, hs, Replace_dot_dash]

theorem next_fixed (req : Request) (opts : CallSettings) (c : Char) (rest : List Char)
    (h : opts.Address.data = c :: rest) (hc : c ≠ ':') :
    next req opts = .ret (fun _ => .ok { Address := opts.Address }, none) := by
  have hlen : opts.Address.length > 0 := by
    simp [String.length, h]
  have hs : sliceTo1 opts.Address = .ret ⟨[c]⟩ := by
    simp [sliceTo1, h]
  have hne : ¬ ((⟨[c]⟩ : String) = ":") := by
    intro heq
    have := congrArg String.data heq
    simp at this
    exact hc this
  simp [next, hlen, hs, hne]

theorem next_empty (req : Request) (opts : CallSettings) (h : opts.Address.data = []) :
    next req opts = .panic "slice bounds out of range [:1] with length 0" := by
  have hlen : ¬ (opts.Address.length > 0) := by
    simp [String.length, h]
  have hs : sliceTo1 opts.Address = .panic "slice bounds out of range [:1] with length 0" := by
    simp [sliceTo1, h]
  simp [next, hlen, hs]

/-- A resolution that yields a node comes from a producer that always yields
that node. -/
theorem next_of_resolveNode (req : Request) (opts : CallSettings) (node : Node)
    (h : resolveNode req opts = .ret (.ok node)) :
    next req opts = .ret (fun _ => .ok node, none) := by
  cases hd : opts.Address.data with
  | nil =>
      rw [resolveNode, next_empty req opts hd] at h
      simp at h
  | cons c rest =>
      by_cases hc : c = ':'
      · subst hc
        rw [resolveNode, next_colon req opts rest hd] at h
        simp at h
        rw [next_colon req opts rest hd, h]
      · rw [resolveNode, next_fixed req opts c rest hd hc] at h
        simp at h
        rw [next_fixed req opts c rest hd hc, h]

/-! ## The node resolver: properties -/

/-- C4 (defect).  For the service `com.example.inventory` and an empty address
override, `next` does not yield the node `com-example-inventory`: the slice
`opts.Address[:1]` of line 56 panics on the empty string. -/
theorem next_empty_override_panics :
    resolveNode { Service := "com.example.inventory" } { Address := "" }
      = .panic "slice bounds out of range [:1] with length 0" := by
  rfl

/-- C5.  For every request and every address override that starts with a colon,
`next` returns a producer and no error, and every invocation of the producer
yields, without error, the node whose address is the service name with every
dot turned into a dash, followed by the override. -/
theorem next_port_suffix (req : Request) (opts : CallSettings) (rest : List Char)
    (h : opts.Address.data = ':' :: rest) :
    ∃ nx : Next, next req opts = .ret (nx, none) ∧
      ∀ u : Unit, nx u = .ok { Address := dashed req.Service ++ opts.Address, Port := 0 } := by
  exact ⟨_, next_colon req opts rest h, fun _ => rfl⟩

theorem next_port_suffix_witness :
    ∃ nx : Next,
      next { Service := "com.example.inventory" } { Address := ":9090" } = .ret (nx, none) ∧
      ∀ u : Unit, nx u = .ok { Address := dashed "com.example.inventory" ++ ":9090", Port := 0 } :=
  next_port_suffix { Service := "com.example.inventory" } { Address := ":9090" }
    ['9', '0', '9', '0'] (by decide)

/-- C6, counterexample.  With an empty service name and the override `:9090`
(not a full address) resolution yields the node `:9090`; it does not fail, so
not with a not-found error either. -/
theorem resolve_empty_service_yields_node :
    resolveNode { Service := "" } { Address := ":9090" }
        = .ret (.ok { Address := ":9090", Port := 0 }) ∧
      ¬ ∃ e : GoError, resolveNode { Service := "" } { Address := ":9090" }
        = .ret (.error e) := by
  constructor
  · rfl
  · rintro ⟨e, he⟩
    have h : resolveNode { Service := "" } { Address := ":9090" }
        = .ret (.ok { Address := ":9090", Port := 0 }) := by rfl
    rw [h] at he
    simp at he

/-- C6, amended.  For every request, an empty service name included, and every
non-empty address override, resolution succeeds and never fails (so never with
a not-found error): an override that starts with a colon gives the dashed
service name followed by the override, any other override gives the override
itself. -/
theorem resolve_never_fails (req : Request) (opts : CallSettings)
    (h : opts.Address ≠ "") :
    ∃ node : Node, resolveNode req opts = .ret (.ok node) ∧
      node.Address = (if opts.Address.data.head? = some ':'
        then dashed req.Service ++ opts.Address else opts.Address) := by
  cases hd : opts.Address.data with
  | nil =>
      exact absurd (String.ext hd) h
  | cons c rest =>
      by_cases hc : c = ':'
      · subst hc
        refine ⟨{ Address := dashed req.Service ++ opts.Address }, ?_, ?_⟩
        · simp [resolveNode, next_colon req opts rest hd]
        · simp
      · refine ⟨{ Address := opts.Address }, ?_, ?_⟩
        · simp [resolveNode, next_fixed req opts c rest hd hc]
        · simp [hc]

theorem resolve_never_fails_witness :
    ∃ node : Node, resolveNode { Service := "" } { Address := ":9090" } = .ret (.ok node) ∧
      node.Address = (if (":9090" : String).data.head? = some ':'
        then dashed "" ++ ":9090" else ":9090") :=
  resolve_never_fails { Service := "" } { Address := ":9090" } (by decide)

/-! ## The stream dispatcher: lemmas -/

theorem withDeadline_Backoff (env : Env) (ctx : Context) (o : CallSettings) :
    (withDeadline env ctx o).2.Backoff = o.Backoff := by
  unfold withDeadline; split <;> rfl

theorem withDeadline_Retry (env : Env) (ctx : Context) (o : CallSettings) :
    (withDeadline env ctx o).2.Retry = o.Retry := by
  unfold withDeadline; split <;> rfl

theorem withDeadline_Retries (env : Env) (ctx : Context) (o : CallSettings) :
    (withDeadline env ctx o).2.Retries = o.Retries := by
  unfold withDeadline; split <;> rfl

theorem ctxDone_of_err (env : Env) (ctx : Context) (o : CallSettings) (e : CtxErr)
    (h : ctx.err = some e) (p : Nat) :
    ctxDone env (withDeadline env ctx o).1 p = some e := by
  unfold withDeadline; split <;> simp [ctxDone, h]

theorem backoffIndices_append (a b : List Event) :
    backoffIndices (a ++ b) = backoffIndices a ++ backoffIndices b := by
  simp [backoffIndices]

theorem establishments_append (a b : List Event) :
    establishments (a ++ b) = establishments a + establishments b := by
  simp [establishments]

theorem dials_append (a b : List Event) : dials (a ++ b) = dials a + dials b := by
  simp [dials]

theorem stream_establishments (env : Env) (i : Nat) (ctx : Context) (a : String)
    (req : Request) (o : CallSettings) : establishments (stream env i ctx a req o).2 = 1 := by
  unfold stream
  split
  · simp [establishments]
  · split <;> simp [establishments]

theorem stream_backoffIndices (env : Env) (i : Nat) (ctx : Context) (a : String)
    (req : Request) (o : CallSettings) : backoffIndices (stream env i ctx a req o).2 = [] := by
  unfold stream
  split
  · simp [backoffIndices]
  · split <;> simp [backoffIndices]

/-- The error every establishment attempt gives for a content type that the
transport codec table does not have. -/
theorem stream_unknown (env : Env) (i : Nat) (ctx : Context) (a : String)
    (req : Request) (o : CallSettings) (h : env.httpCodecs req.ContentType = none) :
    stream env i ctx a req o
      = ((none, some (InternalServerError env "go.micro.client"
            ("Unsupported Content-Type: " ++ req.ContentType))), [.establish a]) := by
  simp [stream, newHTTPCodec, h, ExtError.Error]

theorem streamCall_const (env : Env) (ctx : Context) (req : Request) (o : CallSettings)
    (node : Node) (i : Nat) (t : Int) (h : o.Backoff ctx req i = .ok t) :
    streamCall env ctx req o (fun _ => .ok node) i
      = ((stream env i ctx (nodeAddress node) req o).1,
          (Event.backoff i :: ((if t > 0 then [Event.sleep t] else []) ++ [Event.produce]))
            ++ (stream env i ctx (nodeAddress node) req o).2
            ++ [Event.mark req.Service node (stream env i ctx (nodeAddress node) req o).1.2]) := by
  simp [streamCall, h]

theorem streamCall_backoffIndices (env : Env) (ctx : Context) (req : Request)
    (o : CallSettings) (nx : Next) (i : Nat) :
    backoffIndices (streamCall env ctx req o nx i).2 = [i] := by
  unfold streamCall
  cases hb : o.Backoff ctx req i with
  | error err => simp [backoffIndices]
  | ok t =>
      cases hn : nx () with
      | error e =>
          by_cases he : e = .ErrNotFound <;> by_cases ht : t > 0 <;>
            simp [backoffIndices, he, ht]
      | ok node =>
          have hs := stream_backoffIndices env i ctx (nodeAddress node) req o
          simp only [backoffIndices_append, hs]
          by_cases ht : t > 0 <;> simp [backoffIndices, ht]

theorem streamCall_establishments (env : Env) (ctx : Context) (req : Request)
    (o : CallSettings) (node : Node) (i : Nat) (t : Int) (h : o.Backoff ctx req i = .ok t) :
    establishments (streamCall env ctx req o (fun _ => .ok node) i).2 = 1 := by
  rw [streamCall_const env ctx req o node i t h]
  simp only [establishments_append, stream_establishments]
  split <;> simp [establishments]

/-- The loop when attempt `i + m` is the first whose session establishment
succeeds and the retry policy always asks for another attempt. -/
theorem streamLoop_success (env : Env) (ctx : Context) (req : Request) (o : CallSettings)
    (node : Node) (err : Option GoError) (hdl : HttpStream)
    (hctx : ∀ p, ctxDone env ctx p = none)
    (hback : ∀ i, ∃ t, o.Backoff ctx req i = .ok t)
    (hretry : ∀ i, o.Retry ctx req i err = .ok true) :
    ∀ (m left i : Nat) (grr : Option GoError), m < left →
      (∀ j, j < m → (stream env (i + j) ctx (nodeAddress node) req o).1.2 ≠ none) →
      (stream env (i + m) ctx (nodeAddress node) req o).1 = (some hdl, none) →
      (streamLoop env ctx req o (fun _ => .ok node) err left i grr).1 = (some hdl, none) ∧
      backoffIndices (streamLoop env ctx req o (fun _ => .ok node) err left i grr).2
        = List.range' i (m + 1) ∧
      establishments (streamLoop env ctx req o (fun _ => .ok node) err left i grr).2
        = m + 1 := by
  intro m
  induction m with
  | zero =>
      intro left i grr hlt _ hsucc
      obtain ⟨l, rfl⟩ : ∃ l, left = l + 1 := ⟨left - 1, by omega⟩
      obtain ⟨t, ht⟩ := hback i
      have hc := streamCall_const env ctx req o node i t ht
      have h1 : (streamCall env ctx req o (fun _ => .ok node) i).1 = (some hdl, none) := by
        rw [hc]; simpa using hsucc
      have hb := streamCall_backoffIndices env ctx req o (fun _ => .ok node) i
      have he := streamCall_establishments env ctx req o node i t ht
      refine ⟨?_, ?_, ?_⟩
      · simp [streamLoop, hctx, h1]
      · simp [streamLoop, hctx, h1, hb]
      · simp [streamLoop, hctx, h1, he]
  | succ m ih =>
      intro left i grr hlt hfail hsucc
      obtain ⟨l, rfl⟩ : ∃ l, left = l + 1 := ⟨left - 1, by omega⟩
      obtain ⟨t, ht⟩ := hback i
      have hc := streamCall_const env ctx req o node i t ht
      have hf0 := hfail 0 (by omega)
      obtain ⟨e, hE⟩ : ∃ e, (stream env i ctx (nodeAddress node) req o).1.2 = some e := by
        cases hx : (stream env i ctx (nodeAddress node) req o).1.2 with
        | none => exact absurd (by simpa using hx) hf0
        | some e => exact ⟨e, rfl⟩
      have h1 : (streamCall env ctx req o (fun _ => .ok node) i).1.2 = some e := by
        rw [hc]; exact hE
      have hb := streamCall_backoffIndices env ctx req o (fun _ => .ok node) i
      have he := streamCall_establishments env ctx req o node i t ht
      have hrec := ih l (i + 1) (some e) (by omega)
        (fun j hj => by
          have := hfail (j + 1) (by omega)
          rwa [show i + (j + 1) = i + 1 + j by omega] at this)
        (by rwa [show i + (m + 1) = i + 1 + m by omega] at hsucc)
      obtain ⟨r1, r2, r3⟩ := hrec
      have hstep : streamLoop env ctx req o (fun _ => .ok node) err (l + 1) i grr
          = ((streamLoop env ctx req o (fun _ => .ok node) err l (i + 1) (some e)).1,
              (streamCall env ctx req o (fun _ => .ok node) i).2 ++ [Event.retry i err]
                ++ (streamLoop env ctx req o (fun _ => .ok node) err l (i + 1) (some e)).2) := by
        simp [streamLoop, hctx, h1, hretry]
      have hz1 : backoffIndices [Event.retry i err] = [] := rfl
      have hz2 : establishments [Event.retry i err] = 0 := rfl
      rw [hstep]
      refine ⟨r1, ?_, ?_⟩
      · simp only [backoffIndices_append, hb, hz1, r2, List.append_nil]
        simp [List.range'_succ]
      · simp only [establishments_append, he, hz2, r3]
        omega

/-- One iteration of the loop when the establishment fails and the retry
policy, consulted with the outer error, declines. -/
theorem streamLoop_decline (env : Env) (ctx : Context) (req : Request) (o : CallSettings)
    (node : Node) (err grr : Option GoError) (left i : Nat) (t : Int) (e : GoError)
    (hctx : ctxDone env ctx (i + 1) = none)
    (hback : o.Backoff ctx req i = .ok t)
    (hfail : (stream env i ctx (nodeAddress node) req o).1.2 = some e)
    (hretry : o.Retry ctx req i err = .ok false) :
    streamLoop env ctx req o (fun _ => .ok node) err (left + 1) i grr
      = ((none, some e),
          (streamCall env ctx req o (fun _ => .ok node) i).2 ++ [Event.retry i err]) := by
  have hc := streamCall_const env ctx req o node i t hback
  have h1 : (streamCall env ctx req o (fun _ => .ok node) i).1.2 = some e := by
    rw [hc]; exact hfail
  simp [streamLoop, hctx, h1, hretry]

/-- The loop when every establishment attempt fails with the same error and the
retry policy always asks for another attempt. -/
theorem streamLoop_all_fail (env : Env) (ctx : Context) (req : Request) (o : CallSettings)
    (node : Node) (err : Option GoError) (E : GoError)
    (hctx : ∀ p, ctxDone env ctx p = none)
    (hback : ∀ i, ∃ t, o.Backoff ctx req i = .ok t)
    (hretry : ∀ i, o.Retry ctx req i err = .ok true)
    (hall : ∀ j, (stream env j ctx (nodeAddress node) req o).1 = (none, some E)) :
    ∀ (left i : Nat) (grr : Option GoError),
      (streamLoop env ctx req o (fun _ => .ok node) err left i grr).1
        = (none, if left = 0 then grr else some E) ∧
      establishments (streamLoop env ctx req o (fun _ => .ok node) err left i grr).2
        = left := by
  intro left
  induction left with
  | zero => intro i grr; simp [streamLoop, establishments]
  | succ l ih =>
      intro i grr
      obtain ⟨t, ht⟩ := hback i
      have hc := streamCall_const env ctx req o node i t ht
      have h1 : (streamCall env ctx req o (fun _ => .ok node) i).1.2 = some E := by
        rw [hc, hall i]
      have he := streamCall_establishments env ctx req o node i t ht
      obtain ⟨r1, r2⟩ := ih (i + 1) (some E)
      have hstep : streamLoop env ctx req o (fun _ => .ok node) err (l + 1) i grr
          = ((streamLoop env ctx req o (fun _ => .ok node) err l (i + 1) (some E)).1,
              (streamCall env ctx req o (fun _ => .ok node) i).2 ++ [Event.retry i err]
                ++ (streamLoop env ctx req o (fun _ => .ok node) err l (i + 1) (some E)).2) := by
        simp [streamLoop, hctx, h1, hretry]
      have hz2 : establishments [Event.retry i err] = 0 := rfl
      rw [hstep]
      refine ⟨?_, ?_⟩
      · rw [r1]; by_cases hl : l = 0 <;> simp [hl]
      · simp only [establishments_append, he, hz2, r2]
        omega

theorem retryConsultations_append (a b : List Event) :
    retryConsultations (a ++ b) = retryConsultations a ++ retryConsultations b := by
  simp [retryConsultations]

theorem stream_dials_unknown (env : Env) (i : Nat) (ctx : Context) (a : String)
    (req : Request) (o : CallSettings) (h : env.httpCodecs req.ContentType = none) :
    dials (stream env i ctx a req o).2 = 0 := by
  rw [stream_unknown env i ctx a req o h]; rfl

theorem stream_retryConsultations (env : Env) (i : Nat) (ctx : Context) (a : String)
    (req : Request) (o : CallSettings) :
    retryConsultations (stream env i ctx a req o).2 = [] := by
  unfold stream
  split
  · simp [retryConsultations]
  · split <;> simp [retryConsultations]

/-- Session establishment gives a handle exactly when it gives no error. -/
theorem stream_definite (env : Env) (i : Nat) (ctx : Context) (a : String)
    (req : Request) (o : CallSettings) :
    (∃ s, (stream env i ctx a req o).1 = (some s, none)) ∨
      (∃ e, (stream env i ctx a req o).1 = (none, some e)) := by
  unfold stream
  split
  · exact Or.inr ⟨_, rfl⟩
  · split
    · exact Or.inr ⟨_, rfl⟩
    · exact Or.inl ⟨_, rfl⟩

theorem streamCall_dials_unknown (env : Env) (ctx : Context) (req : Request)
    (o : CallSettings) (nx : Next) (i : Nat) (h : env.httpCodecs req.ContentType = none) :
    dials (streamCall env ctx req o nx i).2 = 0 := by
  unfold streamCall
  cases hb : o.Backoff ctx req i with
  | error err => simp [dials]
  | ok t =>
      cases hn : nx () with
      | error e =>
          by_cases he : e = .ErrNotFound <;> by_cases ht : t > 0 <;> simp [dials, he, ht]
      | ok node =>
          have hs := stream_dials_unknown env i ctx (nodeAddress node) req o h
          simp only [dials_append, hs]
          by_cases ht : t > 0 <;> simp [dials, ht]

theorem streamCall_retryConsultations (env : Env) (ctx : Context) (req : Request)
    (o : CallSettings) (nx : Next) (i : Nat) :
    retryConsultations (streamCall env ctx req o nx i).2 = [] := by
  unfold streamCall
  cases hb : o.Backoff ctx req i with
  | error err => simp [retryConsultations]
  | ok t =>
      cases hn : nx () with
      | error e =>
          by_cases he : e = .ErrNotFound <;> by_cases ht : t > 0 <;>
            simp [retryConsultations, he, ht]
      | ok node =>
          have hs := stream_retryConsultations env i ctx (nodeAddress node) req o
          simp only [retryConsultations_append, hs]
          by_cases ht : t > 0 <;> simp [retryConsultations, ht]

/-- An attempt gives a handle exactly when it gives no error. -/
theorem streamCall_definite (env : Env) (ctx : Context) (req : Request)
    (o : CallSettings) (nx : Next) (i : Nat) :
    (∃ s, (streamCall env ctx req o nx i).1 = (some s, none)) ∨
      (∃ e, (streamCall env ctx req o nx i).1 = (none, some e)) := by
  unfold streamCall
  cases hb : o.Backoff ctx req i with
  | error err => exact Or.inr ⟨_, rfl⟩
  | ok t =>
      cases hn : nx () with
      | error e =>
          by_cases he : e = .ErrNotFound
          · simp [he]
          · simp [he]
      | ok node => exact stream_definite env i ctx (nodeAddress node) req o

/-- No iteration of the loop dials when the content type has no transport
codec, whatever the policies and the context do. -/
theorem streamLoop_dials_unknown (env : Env) (ctx : Context) (req : Request)
    (o : CallSettings) (nx : Next) (err : Option GoError)
    (h : env.httpCodecs req.ContentType = none) :
    ∀ (left i : Nat) (grr : Option GoError),
      dials (streamLoop env ctx req o nx err left i grr).2 = 0 := by
  intro left
  induction left with
  | zero => intro i grr; rfl
  | succ l ih =>
      intro i grr
      have hc := streamCall_dials_unknown env ctx req o nx i h
      have hz : dials [Event.retry i err] = 0 := rfl
      simp only [streamLoop]
      split
      · exact hc
      · split
        · exact hc
        · split
          · simp only [dials_append, hc, hz]
          · simp only [dials_append, hc, hz]
          · simp only [dials_append, hc, hz, ih]

/-- Every consultation of the retry policy is shown the outer error `err`. -/
theorem streamLoop_retry_argument (env : Env) (ctx : Context) (req : Request)
    (o : CallSettings) (nx : Next) (err : Option GoError) :
    ∀ (left i : Nat) (grr : Option GoError),
      ∀ x ∈ retryConsultations (streamLoop env ctx req o nx err left i grr).2, x.2 = err := by
  intro left
  induction left with
  | zero => intro i grr x hx; simp [streamLoop, retryConsultations] at hx
  | succ l ih =>
      intro i grr x
      have hc := streamCall_retryConsultations env ctx req o nx i
      have hz : retryConsultations [Event.retry i err] = [(i, err)] := rfl
      simp only [streamLoop]
      split
      · intro hx; simp [hc] at hx
      · split
        · intro hx; simp [hc] at hx
        · split
          · intro hx
            simp only [retryConsultations_append, hc, hz] at hx
            simp at hx; simp [hx]
          · intro hx
            simp only [retryConsultations_append, hc, hz] at hx
            simp at hx; simp [hx]
          · intro hx
            simp only [retryConsultations_append, hc, hz] at hx
            simp at hx
            rcases hx with hx | hx
            · simp [hx]
            · exact ih (i + 1) _ x hx

/-- The loop never ends with neither a handle nor an error once it runs at
least one iteration or already holds an error. -/
theorem streamLoop_definite (env : Env) (ctx : Context) (req : Request)
    (o : CallSettings) (nx : Next) (err : Option GoError) :
    ∀ (left i : Nat) (grr : Option GoError), (0 < left ∨ grr ≠ none) →
      (∃ s, (streamLoop env ctx req o nx err left i grr).1 = (some s, none)) ∨
        (∃ e, (streamLoop env ctx req o nx err left i grr).1 = (none, some e)) := by
  intro left
  induction left with
  | zero =>
      intro i grr h
      rcases h with h | h
      · omega
      · cases grr with
        | none => exact absurd rfl h
        | some e => exact Or.inr ⟨e, rfl⟩
  | succ l ih =>
      intro i grr _
      simp only [streamLoop]
      split
      · exact Or.inr ⟨_, rfl⟩
      · split
        · rename_i hnone
          rcases streamCall_definite env ctx req o nx i with ⟨s, hs⟩ | ⟨e, he⟩
          · exact Or.inl ⟨s, by rw [hs]⟩
          · rw [he] at hnone; simp at hnone
        · split
          · exact Or.inr ⟨_, rfl⟩
          · exact Or.inr ⟨_, rfl⟩
          · exact ih (i + 1) _ (Or.inr (by simp))

/-- The consultations of the loop when every establishment attempt fails with
the same error and every consultation asks for another attempt: one for each
attempt, each with the outer error. -/
theorem streamLoop_all_fail_consultations (env : Env) (ctx : Context) (req : Request)
    (o : CallSettings) (node : Node) (err : Option GoError) (E : GoError)
    (hctx : ∀ p, ctxDone env ctx p = none)
    (hback : ∀ i, ∃ t, o.Backoff ctx req i = .ok t)
    (hretry : ∀ i, o.Retry ctx req i err = .ok true)
    (hall : ∀ j, (stream env j ctx (nodeAddress node) req o).1 = (none, some E)) :
    ∀ (left i : Nat) (grr : Option GoError),
      retryConsultations (streamLoop env ctx req o (fun _ => .ok node) err left i grr).2
        = (List.range' i left).map (fun j => (j, err)) := by
  intro left
  induction left with
  | zero => intro i grr; rfl
  | succ l ih =>
      intro i grr
      obtain ⟨t, ht⟩ := hback i
      have hc := streamCall_const env ctx req o node i t ht
      have h1 : (streamCall env ctx req o (fun _ => .ok node) i).1.2 = some E := by
        rw [hc, hall i]
      have hr := streamCall_retryConsultations env ctx req o (fun _ => .ok node) i
      have hstep : streamLoop env ctx req o (fun _ => .ok node) err (l + 1) i grr
          = ((streamLoop env ctx req o (fun _ => .ok node) err l (i + 1) (some E)).1,
              (streamCall env ctx req o (fun _ => .ok node) i).2 ++ [Event.retry i err]
                ++ (streamLoop env ctx req o (fun _ => .ok node) err l (i + 1) (some E)).2) := by
        simp [streamLoop, hctx, h1, hretry]
      have hz : retryConsultations [Event.retry i err] = [(i, err)] := rfl
      rw [hstep]
      simp only [retryConsultations_append, hr, hz, ih (i + 1) (some E)]
      simp [List.range'_succ]

/-- The dispatcher past resolution, the check before the start and the
creation of the channel: what is left is the loop. -/
theorem Stream_resolved (env : Env) (ctx : Context) (req : Request) (callOpts : CallOptions)
    (node : Node)
    (hres : resolveNode req callOpts.toCallSettings = .ret (.ok node))
    (h0 : ctxDone env (dispatchCtx env ctx callOpts) 0 = none)
    (hr : 0 ≤ callOpts.Retries) (hcap : callOpts.Retries ≤ env.responseChanLimit) :
    Stream env ctx req callOpts
      = (.ret (streamLoop env (dispatchCtx env ctx callOpts) req
            (dispatchOpts env ctx callOpts) (fun _ => .ok node) none
            callOpts.Retries.toNat 0 none).1,
          (streamLoop env (dispatchCtx env ctx callOpts) req
            (dispatchOpts env ctx callOpts) (fun _ => .ok node) none
            callOpts.Retries.toNat 0 none).2) := by
  have hR : (dispatchOpts env ctx callOpts).Retries = callOpts.Retries :=
    withDeadline_Retries env ctx callOpts.toCallSettings
  have hlt : ¬ (callOpts.Retries < 0) := not_lt.mpr hr
  have hgt : ¬ ((env.responseChanLimit : Int) < callOpts.Retries) := not_lt.mpr hcap
  have hm : makeChanPanics env.responseChanLimit callOpts.Retries = false := by
    simp [makeChanPanics, hlt, hgt]
  simp [Stream, next_of_resolveNode req callOpts.toCallSettings node hres, h0, hR, hm]

theorem dispatchOpts_Backoff (env : Env) (ctx : Context) (callOpts : CallOptions) :
    (dispatchOpts env ctx callOpts).Backoff = callOpts.Backoff :=
  withDeadline_Backoff env ctx callOpts.toCallSettings

theorem dispatchOpts_Retry (env : Env) (ctx : Context) (callOpts : CallOptions) :
    (dispatchOpts env ctx callOpts).Retry = callOpts.Retry :=
  withDeadline_Retry env ctx callOpts.toCallSettings

/-- A format without a percent sign is what `fmt.Sprintf` returns for it. -/
theorem Sprintf_plain (env : Env) (text : String) (h : '%' ∉ text.data) :
    Sprintf env text = text := by
  simp [Sprintf, h]

/-- The message of the codec lookup has a percent sign only if the content
type has one. -/
theorem Sprintf_unsupported (env : Env) (contentType : String)
    (h : '%' ∉ contentType.data) :
    Sprintf env ("Unsupported Content-Type: " ++ contentType)
      = "Unsupported Content-Type: " ++ contentType := by
  apply Sprintf_plain
  rw [String.data_append]
  intro hmem
  rcases List.mem_append.mp hmem with h1 | h1
  · revert h1; decide
  · exact h h1

/-! ## The stream dispatcher: properties -/

/-- C1 (defect).  The dialer refuses attempts 0 and 1 and accepts attempt 2,
`Retries` is 3, the retry policy always returns `(true, nil)`, the backoff never
errors and the context is live: every condition of the claim holds with `n = 3`
and `k = 2`.  The call options carry no address override, and `Stream` returns
no handle: line 285 runs `next`, which panics at line 56 on the empty override
(the defect of C4). -/
theorem Stream_unset_address_panics :
    refusesTwice.dial 0 "com-example-inventory" = .error (.other "connection refused") ∧
      refusesTwice.dial 1 "com-example-inventory" = .error (.other "connection refused") ∧
      refusesTwice.dial 2 "com-example-inventory" = .ok 7 ∧
      Stream refusesTwice {} inventoryRequest unsetAddressOptions
        = (.panic "slice bounds out of range [:1] with length 0", []) := by
  refine ⟨by rfl, by rfl, by rfl, by rfl⟩

/-- Let the resolver yield a node and `Retries = n` be a count the channel of
line 343 can hold, with `k < n`.  If the dispatch context is never seen
finished, `Backoff` never errors, every consultation of the retry policy asks
for another attempt, and session establishment fails on attempts `0 .. k-1` and
succeeds on attempt `k` with handle `hdl`, then `Stream` returns `hdl` with a
nil error, after exactly `k + 1` establishment attempts, and the backoff policy
was evaluated exactly with the indices `0, 1, ..., k`, in that order. -/
theorem Stream_succeeds_on_attempt (env : Env) (ctx : Context) (req : Request)
    (callOpts : CallOptions) (node : Node) (hdl : HttpStream) (n k : Nat)
    (hres : resolveNode req callOpts.toCallSettings = .ret (.ok node))
    (hn : callOpts.Retries = n) (hk : k < n) (hcap : n ≤ env.responseChanLimit)
    (hctx : ∀ p, ctxDone env (dispatchCtx env ctx callOpts) p = none)
    (hback : ∀ c r i, ∃ t, callOpts.Backoff c r i = .ok t)
    (hretry : ∀ i, callOpts.Retry (dispatchCtx env ctx callOpts) req i none = .ok true)
    (hfail : ∀ j, j < k → (establishment env ctx req callOpts node j).2 ≠ none)
    (hsucc : establishment env ctx req callOpts node k = (some hdl, none)) :
    (Stream env ctx req callOpts).1 = .ret (some hdl, none) ∧
      establishments (Stream env ctx req callOpts).2 = k + 1 ∧
      backoffIndices (Stream env ctx req callOpts).2 = List.range (k + 1) := by
  have hr : 0 ≤ callOpts.Retries := by rw [hn]; exact Int.natCast_nonneg n
  have hN : callOpts.Retries.toNat = n := by rw [hn]; exact Int.toNat_natCast n
  have hc : callOpts.Retries ≤ env.responseChanLimit := by rw [hn]; exact_mod_cast hcap
  rw [Stream_resolved env ctx req callOpts node hres (hctx 0) hr hc, hN]
  have h := streamLoop_success env (dispatchCtx env ctx callOpts) req
    (dispatchOpts env ctx callOpts) node none hdl hctx
    (fun i => by rw [dispatchOpts_Backoff]; exact hback _ _ i)
    (fun i => by rw [dispatchOpts_Retry]; exact hretry i)
    k n 0 none hk
    (fun j hj => by simpa [establishment] using hfail j hj)
    (by simpa [establishment] using hsucc)
  obtain ⟨h1, h2, h3⟩ := h
  refine ⟨by simp [h1], h3, ?_⟩
  simp only [h2, List.range_eq_range']

/-- With the port suffix `:9090`, three attempts and a dialer that refuses the
first two, `Stream` returns the handle of the third attempt. -/
theorem Stream_third_attempt_succeeds :
    (Stream refusesTwice {} inventoryRequest (portOptions 3 true)).1
        = .ret (some inventoryStream, none) ∧
      establishments (Stream refusesTwice {} inventoryRequest (portOptions 3 true)).2 = 2 + 1 ∧
      backoffIndices (Stream refusesTwice {} inventoryRequest (portOptions 3 true)).2
        = List.range (2 + 1) :=
  Stream_succeeds_on_attempt refusesTwice {} inventoryRequest (portOptions 3 true)
    inventoryNode inventoryStream 3 2 (by rfl) (by rfl) (by decide) (by decide)
    (fun _ => rfl) (fun _ _ _ => ⟨0, rfl⟩) (fun _ => rfl)
    (fun j hj => by
      have hj2 : j = 0 ∨ j = 1 := by omega
      rcases hj2 with rfl | rfl <;> simp [establishment, stream, newHTTPCodec, refusesTwice,
        inventoryRequest, jsonOnly])
    (by rfl)

/-- C2 (defect).  Three attempts are allowed, every dial is refused and the
retry policy declines after every error it is shown: the establishment of
attempt 0 fails with the error `refused`, and for it (index 0, error `refused`)
the policy returns `(false, nil)`.  Yet `Stream` makes three establishment
attempts, not one: line 361 shows the policy the outer `err`, which is nil, at
every consultation (the defect of C3), and the policy asks for another attempt
when it is shown no error. -/
theorem Stream_declined_error_is_retried :
    (establishment refusesAlways {} inventoryRequest declineErrorsOptions inventoryNode 0).2
        = some refused ∧
      declineErrorsOptions.Retry (dispatchCtx refusesAlways {} declineErrorsOptions)
        inventoryRequest 0 (some refused) = .ok false ∧
      establishments (Stream refusesAlways {} inventoryRequest declineErrorsOptions).2 = 3 ∧
      establishments (Stream refusesAlways {} inventoryRequest declineErrorsOptions).2 ≠ 1 ∧
      retryConsultations (Stream refusesAlways {} inventoryRequest declineErrorsOptions).2
        = [(0, none), (1, none), (2, none)] := by
  refine ⟨by rfl, by rfl, by rfl, by decide, by rfl⟩

/-- Let the resolver yield a node and `Retries >= 1` be a count the channel of
line 343 can hold.  If the dispatch context is not seen finished, the
establishment of attempt 0 takes place (its backoff gives a delay) and fails
with error `e`, and the consultation of the retry policy that line 361 makes
(index 0 and the outer `err`, which is nil) returns `(false, nil)`, then exactly
one establishment attempt is made and `Stream` returns no handle together with
exactly `e`. -/
theorem Stream_stops_when_consultation_declines (env : Env) (ctx : Context) (req : Request)
    (callOpts : CallOptions) (node : Node) (e : GoError) (t : Int)
    (hres : resolveNode req callOpts.toCallSettings = .ret (.ok node))
    (hn : 1 ≤ callOpts.Retries) (hcap : callOpts.Retries ≤ env.responseChanLimit)
    (hctx : ∀ p, ctxDone env (dispatchCtx env ctx callOpts) p = none)
    (hback : callOpts.Backoff (dispatchCtx env ctx callOpts) req 0 = .ok t)
    (hfail : (establishment env ctx req callOpts node 0).2 = some e)
    (hretry : callOpts.Retry (dispatchCtx env ctx callOpts) req 0 none = .ok false) :
    (Stream env ctx req callOpts).1 = .ret (none, some e) ∧
      establishments (Stream env ctx req callOpts).2 = 1 ∧
      retryConsultations (Stream env ctx req callOpts).2 = [(0, none)] := by
  have hr : 0 ≤ callOpts.Retries := by omega
  obtain ⟨l, hl⟩ : ∃ l, callOpts.Retries.toNat = l + 1 :=
    ⟨callOpts.Retries.toNat - 1, by omega⟩
  have hb : (dispatchOpts env ctx callOpts).Backoff (dispatchCtx env ctx callOpts) req 0
      = .ok t := by rw [dispatchOpts_Backoff]; exact hback
  rw [Stream_resolved env ctx req callOpts node hres (hctx 0) hr hcap, hl,
    streamLoop_decline env (dispatchCtx env ctx callOpts) req (dispatchOpts env ctx callOpts)
      node none none l 0 t e (hctx 1) hb hfail
      (by rw [dispatchOpts_Retry]; exact hretry)]
  have he := streamCall_establishments env (dispatchCtx env ctx callOpts) req
    (dispatchOpts env ctx callOpts) node 0 t hb
  have hq := streamCall_retryConsultations env (dispatchCtx env ctx callOpts) req
    (dispatchOpts env ctx callOpts) (fun _ => .ok node) 0
  have hz : establishments [Event.retry 0 none] = 0 := rfl
  have hy : retryConsultations [Event.retry 0 none] = [(0, none)] := rfl
  refine ⟨rfl, ?_, ?_⟩
  · simp only [establishments_append, he, hz]
  · simp only [retryConsultations_append, hq, hy, List.nil_append]

/-- C3 (defect).  With one attempt whose dial is refused, the establishment of
attempt 0 fails with the error `refused`, yet the one consultation of the retry
policy is made with the index 0 and a nil error: line 361 passes the variable
`err` of line 285, not `rsp.err`. -/
theorem Stream_retry_is_shown_nil :
    (establishment refusesAlways {} inventoryRequest (portOptions 1 false) inventoryNode 0).2
        = some refused ∧
      retryConsultations (Stream refusesAlways {} inventoryRequest (portOptions 1 false)).2
        = [(0, none)] := by
  constructor <;> rfl

/-- In every dispatch the retry policy is shown a nil error at each of its
consultations, whatever error the attempt gave. -/
theorem Stream_retry_argument (env : Env) (ctx : Context) (req : Request)
    (callOpts : CallOptions) :
    ∀ x ∈ retryConsultations (Stream env ctx req callOpts).2, x.2 = none := by
  intro x
  unfold Stream
  split
  · intro hx; simp [retryConsultations] at hx
  · intro hx; simp [retryConsultations] at hx
  · simp only []
    split
    · intro hx; simp [retryConsultations] at hx
    · split
      · intro hx; simp [retryConsultations] at hx
      · exact streamLoop_retry_argument _ _ _ _ _ none _ 0 none x

/-- C7, counterexample.  For a content type without transport codec, two
attempts allowed and a retry policy that always returns true, `Stream` makes two
establishment attempts, not one, before it returns the error. -/
theorem Stream_retries_unknown_content_type :
    establishments (Stream refusesAlways {} yamlRequest (portOptions 2 true)).2 = 2 ∧
      establishments (Stream refusesAlways {} yamlRequest (portOptions 2 true)).2 ≠ 1 ∧
      (Stream refusesAlways {} yamlRequest (portOptions 2 true)).1
        = .ret (none, some (unsupportedContentType refusesAlways yamlRequest)) := by
  refine ⟨by rfl, by decide, by rfl⟩

/-- C7, amended.  Let the content type of the request be absent from the
transport codec table, the resolver yield a node, `Retries = n` with `1 <= n`
be a count the channel of line 343 can hold, the dispatch context never be seen
finished and `Backoff` never error.  Then:

* `Stream` opens no network connection, whatever the retry policy;
* the failure is not terminal, the retry policy decides: line 361 consults it
  after each failed attempt with the attempt index and a nil error.  When the
  consultation of attempt 0 returns `(false, nil)` there is exactly one
  establishment attempt and that one consultation, `(0, nil)`; when every
  consultation returns `(true, nil)` there are exactly `n` establishment
  attempts and the `n` consultations `(0, nil), ..., (n-1, nil)`;
* in both cases `Stream` returns no handle and the internal error, code 500 and
  id `go.micro.client`, whose detail is `fmt.Sprintf` of the text
  `Unsupported Content-Type: ` followed by the content type, which is that text
  itself when the content type has no percent sign. -/
theorem Stream_unknown_content_type (env : Env) (ctx : Context) (req : Request)
    (callOpts : CallOptions) (node : Node) (n : Nat)
    (hct : env.httpCodecs req.ContentType = none)
    (hres : resolveNode req callOpts.toCallSettings = .ret (.ok node))
    (hn : callOpts.Retries = n) (hn1 : 1 ≤ n) (hcap : n ≤ env.responseChanLimit)
    (hctx : ∀ p, ctxDone env (dispatchCtx env ctx callOpts) p = none)
    (hback : ∀ c r i, ∃ t, callOpts.Backoff c r i = .ok t) :
    dials (Stream env ctx req callOpts).2 = 0 ∧
      (callOpts.Retry (dispatchCtx env ctx callOpts) req 0 none = .ok false →
        (Stream env ctx req callOpts).1
            = .ret (none, some (unsupportedContentType env req)) ∧
          establishments (Stream env ctx req callOpts).2 = 1 ∧
          retryConsultations (Stream env ctx req callOpts).2 = [(0, none)]) ∧
      ((∀ i, callOpts.Retry (dispatchCtx env ctx callOpts) req i none = .ok true) →
        (Stream env ctx req callOpts).1
            = .ret (none, some (unsupportedContentType env req)) ∧
          establishments (Stream env ctx req callOpts).2 = n ∧
          retryConsultations (Stream env ctx req callOpts).2
            = (List.range n).map (fun i => (i, none))) ∧
      unsupportedContentType env req
        = .micro { Id := "go.micro.client", Code := 500,
                   Detail := Sprintf env ("Unsupported Content-Type: " ++ req.ContentType),
                   Status := "Internal Server Error" } ∧
      ('%' ∉ req.ContentType.data →
        Sprintf env ("Unsupported Content-Type: " ++ req.ContentType)
          = "Unsupported Content-Type: " ++ req.ContentType) := by
  have hr : 0 ≤ callOpts.Retries := by rw [hn]; exact Int.natCast_nonneg n
  have hN : callOpts.Retries.toNat = n := by rw [hn]; exact Int.toNat_natCast n
  have hc : callOpts.Retries ≤ env.responseChanLimit := by rw [hn]; exact_mod_cast hcap
  have hS := Stream_resolved env ctx req callOpts node hres (hctx 0) hr hc
  rw [hN] at hS
  have hall : ∀ j, (stream env j (dispatchCtx env ctx callOpts) (nodeAddress node) req
      (dispatchOpts env ctx callOpts)).1 = (none, some (unsupportedContentType env req)) := by
    intro j
    rw [stream_unknown env j _ _ req _ hct]; rfl
  have hb : ∀ i, ∃ t, (dispatchOpts env ctx callOpts).Backoff
      (dispatchCtx env ctx callOpts) req i = .ok t := by
    intro i; rw [dispatchOpts_Backoff]; exact hback _ _ i
  refine ⟨?_, ?_, ?_, rfl, Sprintf_unsupported env req.ContentType⟩
  · rw [hS]
    exact streamLoop_dials_unknown env _ req _ _ none hct n 0 none
  · intro hdecl
    obtain ⟨l, rfl⟩ : ∃ l, n = l + 1 := ⟨n - 1, by omega⟩
    obtain ⟨t, ht⟩ := hb 0
    have hd := streamLoop_decline env (dispatchCtx env ctx callOpts) req
      (dispatchOpts env ctx callOpts) node none none l 0 t (unsupportedContentType env req)
      (hctx 1) ht (by rw [hall 0]) (by rw [dispatchOpts_Retry]; exact hdecl)
    rw [hS, hd]
    have he := streamCall_establishments env (dispatchCtx env ctx callOpts) req
      (dispatchOpts env ctx callOpts) node 0 t ht
    have hq := streamCall_retryConsultations env (dispatchCtx env ctx callOpts) req
      (dispatchOpts env ctx callOpts) (fun _ => .ok node) 0
    have hz : establishments [Event.retry 0 none] = 0 := rfl
    have hy : retryConsultations [Event.retry 0 none] = [(0, none)] := rfl
    refine ⟨rfl, ?_, ?_⟩
    · simp only [establishments_append, he, hz]
    · simp only [retryConsultations_append, hq, hy, List.nil_append]
  · intro htrue
    have hrt : ∀ i, (dispatchOpts env ctx callOpts).Retry (dispatchCtx env ctx callOpts)
        req i none = .ok true := by
      intro i; rw [dispatchOpts_Retry]; exact htrue i
    have h := streamLoop_all_fail env (dispatchCtx env ctx callOpts) req
      (dispatchOpts env ctx callOpts) node none (unsupportedContentType env req) hctx hb
      hrt hall n 0 none
    have hq := streamLoop_all_fail_consultations env (dispatchCtx env ctx callOpts) req
      (dispatchOpts env ctx callOpts) node none (unsupportedContentType env req) hctx hb
      hrt hall n 0 none
    obtain ⟨h1, h2⟩ := h
    rw [hS]
    refine ⟨?_, h2, ?_⟩
    · have hn0 : ¬ (n = 0) := by omega
      simp [h1, hn0]
    · rw [hq, List.range_eq_range']

theorem Stream_unknown_content_type_witness :
    dials (Stream refusesAlways {} yamlRequest (portOptions 2 true)).2 = 0 ∧
      ((Stream refusesAlways {} yamlRequest (portOptions 2 false)).1
          = .ret (none, some (unsupportedContentType refusesAlways yamlRequest)) ∧
        establishments (Stream refusesAlways {} yamlRequest (portOptions 2 false)).2 = 1 ∧
        retryConsultations (Stream refusesAlways {} yamlRequest (portOptions 2 false)).2
          = [(0, none)]) ∧
      ((Stream refusesAlways {} yamlRequest (portOptions 2 true)).1
          = .ret (none, some (unsupportedContentType refusesAlways yamlRequest)) ∧
        establishments (Stream refusesAlways {} yamlRequest (portOptions 2 true)).2 = 2 ∧
        retryConsultations (Stream refusesAlways {} yamlRequest (portOptions 2 true)).2
          = (List.range 2).map (fun i => (i, none))) ∧
      Sprintf refusesAlways ("Unsupported Content-Type: " ++ yamlRequest.ContentType)
        = "Unsupported Content-Type: " ++ yamlRequest.ContentType :=
  ⟨(Stream_unknown_content_type refusesAlways {} yamlRequest (portOptions 2 true)
      inventoryNode 2 (by rfl) (by rfl) (by rfl) (by decide) (by decide) (fun _ => rfl)
      (fun _ _ _ => ⟨0, rfl⟩)).1,
   (Stream_unknown_content_type refusesAlways {} yamlRequest (portOptions 2 false)
      inventoryNode 2 (by rfl) (by rfl) (by rfl) (by decide) (by decide) (fun _ => rfl)
      (fun _ _ _ => ⟨0, rfl⟩)).2.1 (by rfl),
   (Stream_unknown_content_type refusesAlways {} yamlRequest (portOptions 2 true)
      inventoryNode 2 (by rfl) (by rfl) (by rfl) (by decide) (by decide) (fun _ => rfl)
      (fun _ _ _ => ⟨0, rfl⟩)).2.2.1 (fun _ => rfl),
   (Stream_unknown_content_type refusesAlways {} yamlRequest (portOptions 2 true)
      inventoryNode 2 (by rfl) (by rfl) (by rfl) (by decide) (by decide) (fun _ => rfl)
      (fun _ _ _ => ⟨0, rfl⟩)).2.2.2.2 (by decide)⟩

/-- With the library's report of a verb without operand, the content type
`text/%s` gives a detail that is not the message of the codec lookup. -/
theorem Stream_detail_with_verb :
    (Stream refusesAlways {} verbRequest (portOptions 1 false)).1
      = .ret (none, some (.micro { Id := "go.micro.client", Code := 500,
                                   Detail := "Unsupported Content-Type: text/%!s(MISSING)",
                                   Status := "Internal Server Error" })) := by
  rfl

/-- C10 (defect).  With `Retries = 0`, a live context and a port-suffix override
the loop of line 346 never runs and line 374 returns `grr`, still nil: `Stream`
returns no handle together with a nil error. -/
theorem Stream_zero_retries_returns_nothing :
    Stream refusesTwice {} inventoryRequest (portOptions 0 true) = (.ret (none, none), []) := by
  rfl

/-- For `Retries >= 1` that the channel of line 343 can hold and a resolver that
yields a node, `Stream` returns, and what it returns is a handle with a nil
error or no handle with an error, whatever the policies, the establishment
outcomes and the context do. -/
theorem Stream_result_definite (env : Env) (ctx : Context) (req : Request)
    (callOpts : CallOptions) (node : Node)
    (hres : resolveNode req callOpts.toCallSettings = .ret (.ok node))
    (hn : 1 ≤ callOpts.Retries) (hcap : callOpts.Retries ≤ env.responseChanLimit) :
    (∃ s, (Stream env ctx req callOpts).1 = .ret (some s, none)) ∨
      (∃ e, (Stream env ctx req callOpts).1 = .ret (none, some e)) := by
  cases h0 : ctxDone env (dispatchCtx env ctx callOpts) 0 with
  | some e =>
      refine Or.inr ⟨timeoutError e, ?_⟩
      simp [Stream, next_of_resolveNode req callOpts.toCallSettings node hres, h0]
  | none =>
      rw [Stream_resolved env ctx req callOpts node hres h0 (by omega) hcap]
      have hpos : 0 < callOpts.Retries.toNat := by omega
      rcases streamLoop_definite env (dispatchCtx env ctx callOpts) req
          (dispatchOpts env ctx callOpts) (fun _ => .ok node) none
          callOpts.Retries.toNat 0 none (Or.inl hpos) with ⟨s, hs⟩ | ⟨e, he⟩
      · exact Or.inl ⟨s, by rw [hs]⟩
      · exact Or.inr ⟨e, by rw [he]⟩

/-! ## The call dispatcher: properties -/

/-- C8 (defect).  With a context that is already canceled and call options
without address override (the empty string), `Call` does not return the
timeout error: line 216 runs `next` before the check of line 234, and `next`
panics on the empty override (the defect of C4). -/
theorem Call_canceled_empty_override_panics :
    Call refusesTwice canceledCtx inventoryRequest { Address := "" }
      = (.panic "slice bounds out of range [:1] with length 0", []) := by
  rfl

/-- With a resolver that yields a node (a non-empty override), a context that is
finished on entry makes `Call` return the timeout error, code 408 with the text
of the cause, and the trace is empty: the producer is not invoked, no wrapper or
unary call runs, nothing is sent. -/
theorem Call_finished_context (env : Env) (ctx : Context) (req : Request)
    (callOpts : CallOptions) (node : Node) (e : CtxErr)
    (hres : resolveNode req callOpts.toCallSettings = .ret (.ok node))
    (hc : ctx.err = some e) :
    Call env ctx req callOpts
      = (.ret (some (.micro { Id := "go.micro.client", Code := 408, Detail := e.text,
                              Status := "Request Timeout" })), []) := by
  have h0 : ctxDone env (dispatchCtx env ctx callOpts) 0 = some e :=
    ctxDone_of_err env ctx callOpts.toCallSettings e hc 0
  simp [Call, next_of_resolveNode req callOpts.toCallSettings node hres, h0, timeoutError,
    errorsNew]

/-! ## The publish path: properties -/

/-- C9, counterexample.  When the broker refuses to publish, `Publish` returns
the error of the broker itself, not an internal error that wraps it. -/
theorem Publish_returns_broker_error_unwrapped :
    (Publish brokerDown false {} soldMessage).1.1
        = .ret (some (.ext (.other "broker unavailable"))) ∧
      ¬ ∃ m : MicroError,
        (Publish brokerDown false {} soldMessage).1.1 = .ret (some (.micro m)) := by
  have h : (Publish brokerDown false {} soldMessage).1.1
      = .ret (some (.ext (.other "broker unavailable"))) := by rfl
  refine ⟨h, ?_⟩
  rintro ⟨m, hm⟩
  rw [h] at hm
  simp at hm

/-- C9, amended.  For every message, published with a context whose metadata
is absent or a map that is not nil: when the lookup of the message codec fails
with an error, or the writing of the envelope fails with an error, `Publish`
returns the internal error, code 500 and id `go.micro.client`, whose detail is
`fmt.Sprintf` of the text of that error, which is that text itself when it has
no percent sign; when the broker fails to publish, `Publish` returns the error
of the broker unchanged. -/
theorem Publish_errors (env : Env) (once : Bool) (ctx : Context) (p : Message)
    (hmd : ctx.metadata ≠ .nilMap) :
    (∀ err, newCodec env p.ContentType = .error err →
      (Publish env once ctx p).1.1
        = .ret (some (.micro { Id := "go.micro.client", Code := 500,
                               Detail := Sprintf env err.Error,
                               Status := "Internal Server Error" }))) ∧
    (∀ cf err, newCodec env p.ContentType = .ok cf → env.write cf p.Payload = .error err →
      (Publish env once ctx p).1.1
        = .ret (some (.micro { Id := "go.micro.client", Code := 500,
                               Detail := Sprintf env err.Error,
                               Status := "Internal Server Error" }))) ∧
    (∀ cf body err, newCodec env p.ContentType = .ok cf → env.write cf p.Payload = .ok body →
      env.brokerPublish p.Topic (publishHeader ctx p) body = some err →
      (Publish env once ctx p).1.1 = .ret (some (.ext err))) ∧
    (∀ text : String, '%' ∉ text.data → Sprintf env text = text) := by
  refine ⟨?_, ?_, ?_, fun text h => Sprintf_plain env text h⟩
  · intro err h
    cases hm : ctx.metadata with
    | nilMap => exact absurd hm hmd
    | absent => simp [Publish, hm, h, InternalServerError]
    | entries kv => simp [Publish, hm, h, InternalServerError]
  · intro cf err h hw
    cases hm : ctx.metadata with
    | nilMap => exact absurd hm hmd
    | absent => simp [Publish, hm, h, hw, InternalServerError]
    | entries kv => simp [Publish, hm, h, hw, InternalServerError]
  · intro cf body err h hw hb
    cases hm : ctx.metadata with
    | nilMap => exact absurd hm hmd
    | absent =>
        simp only [publishHeader, hm] at hb
        simp [Publish, hm, h, hw, publishHeader, hb]
    | entries kv =>
        simp only [publishHeader, hm] at hb
        simp [Publish, hm, h, hw, publishHeader, hb]

theorem Publish_errors_witness :
    (Publish noCodecs false {} soldMessage).1.1
        = .ret (some (.micro { Id := "go.micro.client", Code := 500,
                               Detail := "Unsupported Content-Type: application/proto",
                               Status := "Internal Server Error" })) ∧
      (Publish writeFails false {} soldMessage).1.1
        = .ret (some (.micro { Id := "go.micro.client", Code := 500,
                               Detail := "payload is not a proto message",
                               Status := "Internal Server Error" })) ∧
      (Publish brokerDown false {} soldMessage).1.1
        = .ret (some (.ext (.other "broker unavailable"))) :=
  ⟨(Publish_errors noCodecs false {} soldMessage (by decide)).1
      (.other "Unsupported Content-Type: application/proto") (by rfl),
   (Publish_errors writeFails false {} soldMessage (by decide)).2.1
      { name := "proto-rpc" } (.other "payload is not a proto message") (by rfl) (by rfl),
   (Publish_errors brokerDown false {} soldMessage (by decide)).2.2.1
      { name := "proto-rpc" } "sold" (.other "broker unavailable") (by rfl) (by rfl) (by rfl)⟩

end IstioHttp
